import Mathlib

/-!
Verification development for the echo journaling server (`src/server.py`).

The Python code is shallowly embedded in Lean:

* Python floats are modelled as exact real numbers (`ℝ`); `x ** 0.5` on a
  nonnegative sum of squares is `Real.sqrt`.
* The external OpenAI client (embeddings, chat completions) is modelled as
  oracle parameters: the embedding endpoint is a function from a batch of
  input strings to a batch of vectors, and each chat completion's returned
  text is an explicit string parameter.  `json.loads` (a Python library
  call, not repository code) is likewise an oracle returning the parsed
  verdict fields or `none` on any decode failure (including the
  `.get`-on-non-dict `AttributeError` path, which the same bare `except`
  swallows).
* Python `list.sort(key=..., reverse=True)` is a stable descending sort;
  it is embedded as a stable insertion sort (`sortDescBySim`).
* Python truthiness of an optional list field (`if hist_thought.embedding:`)
  is: present and non-empty.
* A reference to a local variable that was never assigned raises
  `NameError` in Python; pipelines that can hit such a reference are
  embedded as `Except PyError _` values.
-/

namespace Echo

/-- `Thought` model of `server.py` (class `Thought`, lines 66-69). -/
structure Thought where
  id : Int
  content : String
  createdAt : String
deriving Repr, DecidableEq

/-- `ThoughtWithEmbedding` model (lines 104-108): optional precomputed
embedding vector. -/
structure ThoughtWithEmbedding where
  id : Int
  content : String
  createdAt : String
  embedding : Option (List ℝ) := none

/-- An entry of the `history_with_embeddings` working list built in
`cross_date_insight` (lines 618-655) and `check_insight` (lines 892-923):
a thought paired with the vector used for similarity scoring. -/
structure HistEmb where
  thought : Thought
  embedding : List ℝ

/-- An element of `related_thoughts` / `best_matches`: a history thought
together with its cosine similarity to the query embedding. -/
structure EchoMatch where
  thought : Thought
  similarity : ℝ

/-- An entry of `computed_embeddings_for_frontend` (lines 915-919):
a freshly computed embedding handed back to the caller. -/
structure ComputedEmbedding where
  thoughtId : Int
  embedding : List ℝ
  model : String

/-- Python `x ** 0.5` for the nonnegative sums of squares in
`cosine_similarity`. -/
noncomputable def pySqrt (x : ℝ) : ℝ := Real.sqrt x

open Classical in
/-- `cosine_similarity` (server.py lines 466-478), verbatim translation:
mismatched lengths return `0.0`; a zero norm on either side returns `0.0`;
otherwise the normalized dot product. -/
noncomputable def cosine_similarity (vec1 vec2 : List ℝ) : ℝ :=
  if vec1.length ≠ vec2.length then 0
  else
    let dot_product := ((vec1.zip vec2).map (fun p => p.1 * p.2)).sum
    let norm1 := pySqrt ((vec1.map (fun a => a * a)).sum)
    let norm2 := pySqrt ((vec2.map (fun b => b * b)).sum)
    if norm1 = 0 ∨ norm2 = 0 then 0
    else dot_product / (norm1 * norm2)

/-- `similarity_threshold = 0.5` (server.py lines 664 and 926). -/
def similarity_threshold : ℝ := 0.5

/-! ### Python string primitives used by the JSON-fence stripping code -/

/-- Python `s.strip()`: drop whitespace from both ends.  (Lean's
`Char.isWhitespace` covers the ASCII whitespace Python strips; it is used
as the model of Python's whitespace set.)  Defined structurally so that it
evaluates definitionally. -/
def pyStrip (s : String) : String :=
  String.mk
    (((s.toList.dropWhile Char.isWhitespace).reverse.dropWhile
        Char.isWhitespace).reverse)

/-- Python `pat in s` (substring containment). -/
def occursSub (s pat : String) : Bool := (s.splitOn pat).length > 1

/-- Python `s.find(pat)`: character index of the first occurrence, `none`
when absent (Python returns `-1`). -/
def str_find (s pat : String) : Option Nat :=
  match s.splitOn pat with
  | [] => none
  | p :: rest => if rest.isEmpty then none else some p.length

/-- Python `s.find(pat, start)`. -/
def str_find_from (s pat : String) (start : Nat) : Option Nat :=
  (str_find (String.mk (s.toList.drop start)) pat).map (· + start)

/-- Python `s[start:stop]` with a nonnegative `start` and a possibly
negative `stop` (negative indexes from the end, clamped at 0). -/
def py_slice (s : String) (start : Nat) (stop : Int) : String :=
  let cs := s.toList
  let stopn : Nat := if stop < 0 then cs.length - stop.natAbs else stop.toNat
  String.mk ((cs.take stopn).drop start)

/-- The markdown code-fence stripping applied to completion output before
`json.loads`, duplicated at server.py lines 874-881 (single-note check) and
1008-1015 (echo check).  When the closing fence is missing, Python's
`find` returns `-1` and the slice drops the final character, which the
embedding reproduces. -/
def strip_code_fence (s : String) : String :=
  if occursSub s "```json" then
    let json_start := (str_find s "```json").getD 0 + 7
    let json_end : Int :=
      match str_find_from s "```" json_start with
      | some e => (e : Int)
      | none => -1
    pyStrip (py_slice s json_start json_end)
  else if occursSub s "```" then
    let json_start := (str_find s "```").getD 0 + 3
    let json_end : Int :=
      match str_find_from s "```" json_start with
      | some e => (e : Int)
      | none => -1
    pyStrip (py_slice s json_start json_end)
  else s

/-! ### Conversation endpoint (`conversation`, server.py lines 336-463) -/

/-- A raw dialogue-history entry as received by `/api/conversation`:
a Python dict whose `role` and `content` keys may be absent
(`msg.get('role', 'user')`, `msg.get('content', '')`). -/
structure PyMessage where
  role : Option String := none
  content : Option String := none
deriving Repr, DecidableEq

/-- A normalized chat message sent to the completion API. -/
structure ChatMessage where
  role : String
  content : String
deriving Repr, DecidableEq

/-- Role normalization for dialogue history (server.py lines 391-395):
`'ai'` becomes `'assistant'`; anything that is not `'user'` becomes
`'user'`; `'user'` is kept. -/
def normalize_role (role : String) : String :=
  if role = "ai" then "assistant"
  else if role ≠ "user" then "user"
  else role

/-- One iteration of the dialogue-history loop (server.py lines 390-402):
normalize the role, skip entries with falsy (empty or absent) content,
append the rest. -/
def history_step (ms : List ChatMessage) (msg : PyMessage) : List ChatMessage :=
  let role := normalize_role (msg.role.getD "user")
  let content := msg.content.getD ""
  if content ≠ "" then ms ++ [⟨role, content⟩] else ms

/-- The dialogue-history conversion of `conversation`
(server.py lines 390-402). -/
def history_messages (conversation : List PyMessage) : List ChatMessage :=
  conversation.foldl history_step []

/-! ### Streaming reply generator (`generate`, server.py lines 424-448) -/

/-- The `delta` of a streamed chunk: `content` may be absent
(`hasattr(delta, 'content')` false or `None`). -/
structure StreamDelta where
  content : Option String := none
deriving Repr, DecidableEq

/-- One element of `chunk.choices`. -/
structure StreamChoice where
  delta : StreamDelta
deriving Repr, DecidableEq

/-- One streamed chunk from the provider. -/
structure StreamChunk where
  choices : List StreamChoice
deriving Repr, DecidableEq

/-- Whether a chunk contributes content: a first choice exists and its
`delta.content` is present and non-empty (Python truthiness at
server.py lines 428-430). -/
def hasChunkContent (chunk : StreamChunk) : Bool :=
  match chunk.choices.head? with
  | none => false
  | some choice =>
    match choice.delta.content with
    | none => false
    | some c => !c.isEmpty

/-- Loop body of `generate` (server.py lines 427-436): accumulate the full
reply and emit one SSE data record per content chunk, newline-escaped. -/
def stream_step (acc : String × List String) (chunk : StreamChunk) :
    String × List String :=
  match chunk.choices.head? with
  | none => acc
  | some choice =>
    match choice.delta.content with
    | none => acc
    | some c =>
      if c.isEmpty then acc
      else (acc.1 ++ c, acc.2 ++ ["data: " ++ c.replace "\n" "[NEWLINE]" ++ "\n\n"])

/-- The async generator `generate` (server.py lines 424-448) as the list of
SSE records it yields on the exception-free path: the per-chunk data
records, then `[DONE]`, then — when the accumulated reply is
whitespace-only — the explicit empty-reply error record. -/
def generate (chunks : List StreamChunk) : List String :=
  let r := chunks.foldl stream_step ("", [])
  let out := r.2 ++ ["data: [DONE]\n\n"]
  if pyStrip r.1 = "" then out ++ ["data: [ERROR]AI 未能生成有效的回复\n\n"]
  else out

/-! ### Fingerprint resolution for history notes
(server.py lines 618-655 in `cross_date_insight`, 892-923 in `check_insight`;
the two blocks are line-for-line duplicates) -/

/-- Python truthiness of `hist_thought.embedding` (lines 622 / 898): present
and non-empty. -/
def hasEmbedding (t : ThoughtWithEmbedding) : Bool :=
  match t.embedding with
  | some v => !v.isEmpty
  | none => false

/-- `Thought(id=..., content=..., createdAt=...)` reconstruction. -/
def toThought (t : ThoughtWithEmbedding) : Thought :=
  ⟨t.id, t.content, t.createdAt⟩

/-- Result of the history-embedding resolution block: the working list for
similarity scoring, the freshly computed embeddings for the frontend, the
trace of outbound `embeddings.create` calls (each entry is one call's input
batch), and the final value of the Python loop variable `thought` of
`for thought, emb_data in zip(...)` (server.py line 914 / 643), which leaks
into the enclosing function scope. -/
structure ResolveResult where
  historyWithEmbeddings : List HistEmb
  computedForFrontend : List ComputedEmbedding
  calls : List (List String)
  leakedLoopVar : Option ThoughtWithEmbedding

/-- The history-embedding resolution block: reuse supplied embeddings,
batch all missing ones into a single `embeddings.create` call (made only
when at least one is missing), and append the freshly embedded notes after
the reused ones.  `embedOracle` is the external embedding capability
(`response.data`, order-preserving); `embedModelName` is `response.model`. -/
def resolve_history (hist : List ThoughtWithEmbedding)
    (embedOracle : List String → List (List ℝ)) (embedModelName : String) :
    ResolveResult :=
  let withEmb := (hist.filter hasEmbedding).map
    (fun h => HistEmb.mk (toThought h) (h.embedding.getD []))
  let missing := hist.filter (fun h => !hasEmbedding h)
  if missing.isEmpty then
    ⟨withEmb, [], [], none⟩
  else
    let missing_contents := missing.map (·.content)
    let pairs := missing.zip (embedOracle missing_contents)
    ⟨withEmb ++ pairs.map (fun p => HistEmb.mk (toThought p.1) p.2),
     pairs.map (fun p => ⟨p.1.id, p.2, embedModelName⟩),
     [missing_contents],
     (pairs.getLast?).map (·.1)⟩

/-! ### Echo ranking
(server.py lines 667-704 in `cross_date_insight`, 929-943 in `check_insight`) -/

open Classical in
/-- The candidate-collection loop (lines 673-693 / 929-939): skip the
candidate whose id equals the excluded id, keep candidates whose cosine
similarity to the query embedding is strictly above `similarity_threshold`,
in input order. -/
noncomputable def bestMatches (emb : List ℝ) (excludeId : Int)
    (history : List HistEmb) : List EchoMatch :=
  history.filterMap (fun h =>
    if h.thought.id = excludeId then none
    else if cosine_similarity emb h.embedding > similarity_threshold then
      some ⟨h.thought, cosine_similarity emb h.embedding⟩
    else none)

open Classical in
/-- Stable descending insert: `x` is placed before the first element whose
similarity is at most `x`'s.  Used to embed Python's stable
`list.sort(key=lambda x: x['similarity'], reverse=True)`. -/
noncomputable def insertDesc (x : EchoMatch) : List EchoMatch → List EchoMatch
  | [] => [x]
  | y :: ys =>
    if y.similarity ≤ x.similarity then x :: y :: ys
    else y :: insertDesc x ys

/-- Stable descending insertion sort embedding
`best_matches.sort(key=lambda x: x['similarity'], reverse=True)`
(lines 703 / 942): CPython's sort is stable, and with `reverse=True`
elements with equal keys keep their input order. -/
noncomputable def sortDescBySim : List EchoMatch → List EchoMatch
  | [] => []
  | x :: xs => insertDesc x (sortDescBySim xs)

/-- The full ranking step (lines 686-704 / 935-943): threshold filter with
self-exclusion, stable descending sort, truncation to the top 5. -/
noncomputable def echoRank (emb : List ℝ) (excludeId : Int)
    (history : List HistEmb) : List EchoMatch :=
  (sortDescBySim (bestMatches emb excludeId history)).take 5

/-! ### Verdict parsing and the check-insight pipeline
(`check_insight`, server.py lines 803-1090) -/

/-- The fields read from a parsed single-note verdict
(`single_point_data.get("worthTalking", False)`, `.get("reason", "")`).
The JSON oracle folds the `.get` defaults in. -/
structure SPVerdict where
  worthTalking : Bool
  reason : String
deriving Repr, DecidableEq

/-- The fields read from a parsed echo verdict
(`history_data.get("worthTalking", False)`, `.get("question", "")`,
`.get("thinking", "")`). -/
structure HistVerdict where
  worthTalking : Bool
  question : String
  thinking : String
deriving Repr, DecidableEq

/-- The `final_thinking` payload.  Only the single-point shape
`json.dumps({"type": "single_point", "reason": ...})` (line 1068) can reach
the response: the echo-path assignment
`history_thinking = json.dumps({"relatedThoughts": related_thoughts, ...})`
(lines 1021-1024) raises `TypeError` — `related_thoughts` holds pydantic
`Thought` objects, which `json.dumps` cannot serialize — and the bare
`except` at line 1025 swallows it, so `history_thinking` always stays
`None`. -/
inductive ThinkingVal where
  | singlePoint (reason : String)
deriving Repr, DecidableEq

/-- `CheckInsightResponse` (server.py lines 127-131). -/
structure CheckInsightResponse where
  worthTalking : Bool
  question : Option String
  thinking : Option ThinkingVal
  computedEmbeddings : Option (List ComputedEmbedding)

/-- Python runtime errors surfaced by the embedding. -/
inductive PyError where
  | nameError (name : String)
deriving Repr, DecidableEq

/-- The single-note verdict parse (server.py lines 867-888): strip the
completion text, strip code fences, decode; any decode failure degrades to
`False` via the `except` at line 885. -/
def parse_single_point (jsonParse : String → Option SPVerdict)
    (raw : String) : Bool :=
  match jsonParse (strip_code_fence (pyStrip raw)) with
  | some d => d.worthTalking
  | none => false

/-- `single_point_data.get("reason", "")`, read at line 1068 only on the
branch where the single-note parse succeeded. -/
def single_reason (jsonParse : String → Option SPVerdict)
    (raw : String) : String :=
  match jsonParse (strip_code_fence (pyStrip raw)) with
  | some d => d.reason
  | none => ""

/-- The echo-verdict step (server.py lines 948-1026): runs only when
`related_thoughts` is non-empty; decode failure leaves
`history_worth = False`; on a worth-surfacing verdict the question is
recorded (the thinking assignment always fails, see `ThinkingVal`).
Returns `(history_worth, history_question)`. -/
def history_verdict (jsonParse : String → Option HistVerdict)
    (history_raw : String) (related : List EchoMatch) :
    Bool × Option String :=
  if related.isEmpty then (false, none)
  else
    match jsonParse (strip_code_fence (pyStrip history_raw)) with
    | none => (false, none)
    | some d =>
      if d.worthTalking then (true, some d.question) else (false, none)

/-- The ranked related-thoughts list computed inside `check_insight`
(server.py lines 892-943).  The exclusion id is taken from the Python
variable `thought`: initially `request.thought`, but the batch-embedding
loop `for thought, emb_data in zip(...)` at line 914 rebinds it, so after
an in-call embedding the id of the *last re-embedded history note* is
excluded instead of the query note's id. -/
noncomputable def check_insight_matches (req_thought : Thought)
    (current_embedding : List ℝ) (hist : List ThoughtWithEmbedding)
    (embedOracle : List String → List (List ℝ)) (embedModelName : String) :
    List EchoMatch :=
  let r := resolve_history hist embedOracle embedModelName
  let excludeId :=
    match r.leakedLoopVar with
    | some t => t.id
    | none => req_thought.id
  echoRank current_embedding excludeId r.historyWithEmbeddings

/-- The per-today-thought ranking of `cross_date_insight`
(server.py lines 667-704): there the exclusion id is the loop variable
`today_thought.id`, which is not affected by the line-643 rebinding of
`thought`. -/
noncomputable def cross_date_matches (today : Thought)
    (today_emb : List ℝ) (hist : List ThoughtWithEmbedding)
    (embedOracle : List String → List (List ℝ)) (embedModelName : String) :
    List EchoMatch :=
  echoRank today_emb today.id
    (resolve_history hist embedOracle embedModelName).historyWithEmbeddings

/-- The decision part of `check_insight` (server.py lines 817-1081), with
the external calls as oracles: `current_embedding` is the step-1 embedding
of the query note, `single_raw` / `history_raw` / `single_question_raw` are
the three completion outputs (the latter two only consulted on the branches
that issue those calls).  When `historyThoughts` is empty, the merge at
lines 1031-1032 reads `history_worth`, which is only ever assigned inside
the non-empty branch (line 948), so Python raises `NameError` and the
endpoint fails. -/
noncomputable def check_insight (req_thought : Thought)
    (current_embedding : List ℝ) (hist : List ThoughtWithEmbedding)
    (embedOracle : List String → List (List ℝ)) (embedModelName : String)
    (jpSingle : String → Option SPVerdict) (single_raw : String)
    (jpHistory : String → Option HistVerdict) (history_raw : String)
    (single_question_raw : String) :
    Except PyError CheckInsightResponse :=
  let single_point_worth := parse_single_point jpSingle single_raw
  if hist.isEmpty then
    Except.error (PyError.nameError "history_worth")
  else
    let r := resolve_history hist embedOracle embedModelName
    let related :=
      check_insight_matches req_thought current_embedding hist embedOracle
        embedModelName
    let hv := history_verdict jpHistory history_raw related
    let worth_talking := single_point_worth || hv.1
    let computed : Option (List ComputedEmbedding) :=
      if r.computedForFrontend.isEmpty then none else some r.computedForFrontend
    if single_point_worth && !hv.1 then
      Except.ok ⟨worth_talking, some (pyStrip single_question_raw),
        some (ThinkingVal.singlePoint (single_reason jpSingle single_raw)),
        computed⟩
    else
      Except.ok ⟨worth_talking, (if hv.1 then hv.2 else none), none, computed⟩

/-! ### Helper lemmas: evaluating `cosine_similarity` on small inputs -/

/-- Zipping a list with itself and multiplying pointwise squares it. -/
lemma zip_self_map_mul (a : List ℝ) :
    ((a.zip a).map fun p => p.1 * p.2) = a.map fun x => x * x := by
  induction a with
  | nil => simp
  | cons x xs ih => simp [ih]

/-- `cosine_similarity [1] [1] = 1`. -/
lemma cos_ones_eval : cosine_similarity [(1 : ℝ)] [(1 : ℝ)] = 1 := by
  simp [cosine_similarity, pySqrt]

/-- A length mismatch short-circuits to `0`. -/
lemma cos_mismatch_eval : cosine_similarity [] [(1 : ℝ)] = 0 := by
  simp [cosine_similarity]

/-- C1. The spec demands that `cosineSimilarity` on mismatched-length
vectors fail with a `DimensionMismatchError` and never return `0.0`; the
source (server.py lines 468-469) instead silently returns `0.0`, as this
evaluation at the mismatched pair `[1]` / `[1, 2]` shows. -/
theorem cosine_similarity_mismatch_returns_zero :
    cosine_similarity [(1 : ℝ)] [1, 2] = 0 := by
  norm_num [cosine_similarity]

/-- C10 counterexample: the claim quantifies over *all* equal-length
vectors including the zero vector, but on the zero vector the zero-norm
guard (server.py lines 475-476) returns `0.0`, not `1.0`. -/
theorem cosine_similarity_zero_vector :
    cosine_similarity [(0 : ℝ)] [(0 : ℝ)] = 0 ∧ (0 : ℝ) ≠ 1 := by
  constructor
  · simp [cosine_similarity, pySqrt]
  · norm_num

/-- C10 (amended): for every vector `a` whose sum of squared entries is
nonzero (i.e. every vector other than a zero/empty vector),
`cosine_similarity a a = 1` exactly, in the real-arithmetic model of
Python floats. -/
theorem cosine_similarity_self (a : List ℝ)
    (h : (a.map fun x => x * x).sum ≠ 0) :
    cosine_similarity a a = 1 := by
  have hnn : 0 ≤ (a.map fun x => x * x).sum := by
    apply List.sum_nonneg
    intro x hx
    obtain ⟨y, -, rfl⟩ := List.mem_map.mp hx
    exact mul_self_nonneg y
  have hpos : 0 < (a.map fun x => x * x).sum := lt_of_le_of_ne hnn (Ne.symm h)
  have hsq : pySqrt ((a.map fun x => x * x).sum) ≠ 0 := by
    simpa [pySqrt] using Real.sqrt_ne_zero'.mpr hpos
  simp only [cosine_similarity, zip_self_map_mul]
  rw [if_neg (by simp)]
  rw [if_neg (by simp [hsq])]
  rw [pySqrt, Real.mul_self_sqrt hnn, div_self h]

/-- C10 witness: the vector `[1]` has nonzero sum of squares and cosine
self-similarity `1`. -/
theorem cosine_similarity_self_witness :
    ((([1] : List ℝ).map fun x => x * x).sum ≠ 0)
    ∧ cosine_similarity [(1 : ℝ)] [(1 : ℝ)] = 1 :=
  ⟨by simp, cosine_similarity_self [1] (by simp)⟩

/-! ### C4: empty streaming reply -/

/-- A chunk without content leaves the generator state unchanged. -/
lemma stream_step_noop (acc : String × List String) (c : StreamChunk)
    (h : hasChunkContent c = false) : stream_step acc c = acc := by
  obtain ⟨choices⟩ := c
  cases choices with
  | nil => rfl
  | cons ch rest =>
    obtain ⟨⟨cont⟩⟩ := ch
    cases cont with
    | none => rfl
    | some s =>
      simp [hasChunkContent] at h
      simp [stream_step, h]

/-- Folding over a contentless chunk list leaves the state unchanged. -/
lemma foldl_stream_step_noop (chunks : List StreamChunk)
    (acc : String × List String)
    (h : ∀ c ∈ chunks, hasChunkContent c = false) :
    chunks.foldl stream_step acc = acc := by
  induction chunks generalizing acc with
  | nil => rfl
  | cons c cs ih =>
    rw [List.foldl_cons, stream_step_noop acc c (h c (by simp))]
    exact ih acc (fun c' hc' => h c' (by simp [hc']))

/-- C4. When the provider emits zero content chunks, the emitted stream is
the completion marker followed by the explicit empty-reply error record —
it terminates with the error signal, not with only `[DONE]`
(server.py lines 439-443; note the error record comes *after* the
`[DONE]` record). -/
theorem generate_empty_stream (chunks : List StreamChunk)
    (h : ∀ c ∈ chunks, hasChunkContent c = false) :
    generate chunks
      = ["data: [DONE]\n\n", "data: [ERROR]AI 未能生成有效的回复\n\n"] := by
  unfold generate
  rw [foldl_stream_step_noop chunks ("", []) h]
  decide

/-- C4 witness: three contentless chunk shapes (no choices, absent content,
empty content) produce exactly `[DONE]` followed by the empty-reply error. -/
theorem generate_empty_stream_witness :
    (∀ c ∈ ([⟨[]⟩, ⟨[⟨⟨none⟩⟩]⟩, ⟨[⟨⟨some ""⟩⟩]⟩] : List StreamChunk),
      hasChunkContent c = false)
    ∧ generate [⟨[]⟩, ⟨[⟨⟨none⟩⟩]⟩, ⟨[⟨⟨some ""⟩⟩]⟩]
        = ["data: [DONE]\n\n", "data: [ERROR]AI 未能生成有效的回复\n\n"] :=
  ⟨by decide, generate_empty_stream _ (by decide)⟩

/-! ### C5: role normalization -/

/-- Every normalized role is `user` or `assistant`. -/
lemma normalize_role_cases (role : String) :
    normalize_role role = "user" ∨ normalize_role role = "assistant" := by
  unfold normalize_role
  split
  · exact Or.inr rfl
  · split
    · exact Or.inl rfl
    · next h => exact Or.inl (not_ne_iff.mp h)

/-- Accumulator-general form of the C5 invariant over the history loop. -/
lemma history_messages_all_aux (conv : List PyMessage)
    (acc : List ChatMessage)
    (hacc : (acc.all fun m => m.role == "user" || m.role == "assistant") = true) :
    ((conv.foldl history_step acc).all
      fun m => m.role == "user" || m.role == "assistant") = true := by
  induction conv generalizing acc with
  | nil => simpa using hacc
  | cons msg rest ih =>
    rw [List.foldl_cons]
    apply ih
    by_cases hc : msg.content.getD "" = ""
    · have hstep : history_step acc msg = acc := by simp [history_step, hc]
      rw [hstep]; exact hacc
    · have hstep : history_step acc msg
          = acc ++ [⟨normalize_role (msg.role.getD "user"), msg.content.getD ""⟩] := by
        simp [history_step, hc]
      rw [hstep, List.all_append, hacc]
      simp only [List.all_cons, List.all_nil, Bool.and_true, Bool.true_and]
      rcases normalize_role_cases (msg.role.getD "user") with h | h <;> simp [h]

/-- C5 counterexample: the claim says a supplied role `'assistant'` keeps
role `'assistant'`; the code (server.py lines 391-395) maps anything that
is neither `'ai'` nor `'user'` — including `'assistant'` itself — to
`'user'`. -/
theorem normalize_role_assistant_collapses :
    normalize_role "assistant" = "user"
    ∧ normalize_role "assistant" ≠ "assistant" := by
  constructor <;> decide

/-- C5 (amended): every message produced from the dialogue history carries
role `user` or `assistant`, and the full normalization map is: `'ai'`
becomes `'assistant'` and every other supplied role — including
`'assistant'` itself — becomes `'user'`. -/
theorem conversation_roles_normalized :
    (∀ conv : List PyMessage,
      ((history_messages conv).all
        fun m => m.role == "user" || m.role == "assistant") = true)
    ∧ ∀ role : String,
        normalize_role role = if role = "ai" then "assistant" else "user" := by
  constructor
  · intro conv
    exact history_messages_all_aux conv [] rfl
  · intro role
    unfold normalize_role
    by_cases h1 : role = "ai"
    · simp [h1]
    · by_cases h2 : role = "user" <;> simp [h1, h2]

/-! ### Echo-ranking lemmas -/

/-- Membership through a stable descending insert. -/
lemma mem_insertDesc {a x : EchoMatch} {l : List EchoMatch} :
    a ∈ insertDesc x l ↔ a = x ∨ a ∈ l := by
  induction l with
  | nil => simp [insertDesc]
  | cons y ys ih =>
    unfold insertDesc
    split
    · simp
    · simp [ih]
      tauto

/-- Membership through the stable descending sort. -/
lemma mem_sortDescBySim {a : EchoMatch} {l : List EchoMatch} :
    a ∈ sortDescBySim l ↔ a ∈ l := by
  induction l with
  | nil => simp [sortDescBySim]
  | cons x xs ih => simp [sortDescBySim, mem_insertDesc, ih]

/-- Inserting preserves the descending-similarity invariant. -/
lemma pairwise_insertDesc {x : EchoMatch} {l : List EchoMatch}
    (hl : l.Pairwise fun a b => b.similarity ≤ a.similarity) :
    (insertDesc x l).Pairwise fun a b => b.similarity ≤ a.similarity := by
  induction l with
  | nil => simp [insertDesc]
  | cons y ys ih =>
    rw [List.pairwise_cons] at hl
    obtain ⟨hy, hys⟩ := hl
    unfold insertDesc
    split
    · next hle =>
      rw [List.pairwise_cons]
      refine ⟨?_, List.pairwise_cons.mpr ⟨hy, hys⟩⟩
      intro b hb
      rcases List.mem_cons.mp hb with rfl | hb'
      · exact hle
      · exact le_trans (hy b hb') hle
    · next hlt =>
      rw [List.pairwise_cons]
      refine ⟨?_, ih hys⟩
      intro b hb
      rcases mem_insertDesc.mp hb with rfl | hb'
      · exact le_of_lt (lt_of_not_le hlt)
      · exact hy b hb'

/-- The stable descending sort is sorted (non-strictly descending). -/
lemma pairwise_sortDescBySim (l : List EchoMatch) :
    (sortDescBySim l).Pairwise fun a b => b.similarity ≤ a.similarity := by
  induction l with
  | nil => simp [sortDescBySim]
  | cons x xs ih =>
    rw [show sortDescBySim (x :: xs) = insertDesc x (sortDescBySim xs) from rfl]
    exact pairwise_insertDesc ih

open Classical in
/-- Stability of the insert: on a sorted list, the elements of any fixed
similarity value keep their relative order, with the inserted (earlier in
input) element first. -/
lemma filter_insertDesc (x : EchoMatch) (l : List EchoMatch) (s : ℝ)
    (hl : l.Pairwise fun a b => b.similarity ≤ a.similarity) :
    (insertDesc x l).filter (fun m => decide (m.similarity = s))
      = (if x.similarity = s then [x] else [])
          ++ l.filter (fun m => decide (m.similarity = s)) := by
  induction l with
  | nil =>
    by_cases hx : x.similarity = s <;>
      simp [insertDesc, List.filter_cons, hx]
  | cons y ys ih =>
    rw [List.pairwise_cons] at hl
    obtain ⟨hy, hys⟩ := hl
    unfold insertDesc
    split
    · next hle =>
      by_cases hx : x.similarity = s <;>
        simp [List.filter_cons, hx]
    · next hlt =>
      have hxy : x.similarity < y.similarity := lt_of_not_le hlt
      rw [List.filter_cons, List.filter_cons, ih hys]
      by_cases hx : x.similarity = s
      · have hynot : ¬(y.similarity = s) := by
          intro hy'
          rw [hx, ← hy'] at hxy
          exact lt_irrefl _ hxy
        simp [hx, hynot]
      · by_cases hy' : y.similarity = s <;> simp [hx, hy']

open Classical in
/-- Stability of the sort: for every similarity value `s`, the sorted list
restricted to similarity `s` equals the input restricted to similarity `s`
(same elements, same relative order). -/
lemma filter_sortDescBySim (l : List EchoMatch) (s : ℝ) :
    (sortDescBySim l).filter (fun m => decide (m.similarity = s))
      = l.filter (fun m => decide (m.similarity = s)) := by
  induction l with
  | nil => rfl
  | cons x xs ih =>
    rw [show sortDescBySim (x :: xs) = insertDesc x (sortDescBySim xs) from rfl,
      filter_insertDesc x _ s (pairwise_sortDescBySim xs), ih, List.filter_cons]
    by_cases hx : x.similarity = s <;> simp [hx]

/-- Unpacking membership in the collection loop: every collected match has
similarity strictly above the threshold, comes from a candidate whose id is
not the excluded one, and carries that candidate's cosine similarity. -/
lemma mem_bestMatches {m : EchoMatch} {emb : List ℝ} {excl : Int}
    {hist : List HistEmb} (hm : m ∈ bestMatches emb excl hist) :
    m.similarity > similarity_threshold
    ∧ ∃ h ∈ hist, h.thought.id ≠ excl ∧ m.thought = h.thought
        ∧ m.similarity = cosine_similarity emb h.embedding := by
  unfold bestMatches at hm
  obtain ⟨h, hh, hsome⟩ := List.mem_filterMap.mp hm
  by_cases h1 : h.thought.id = excl
  · simp [h1] at hsome
  · rw [if_neg h1] at hsome
    by_cases h2 : cosine_similarity emb h.embedding > similarity_threshold
    · rw [if_pos h2] at hsome
      obtain rfl := Option.some.injEq _ _ ▸ hsome.symm
      exact ⟨h2, h, hh, h1, rfl, rfl⟩
    · simp [h2] at hsome

/-- C6. The echo ranking (used by both `cross_date_insight` and
`check_insight`) keeps only candidates whose similarity is *strictly*
greater than the threshold, whose value is `0.5`; in particular a candidate
whose similarity equals the threshold exactly never appears in the
output. -/
theorem echoRank_strict_threshold :
    similarity_threshold = 0.5
    ∧ ∀ (emb : List ℝ) (excl : Int) (hist : List HistEmb),
        ∀ m ∈ echoRank emb excl hist,
          m.similarity > similarity_threshold
          ∧ m.similarity ≠ similarity_threshold := by
  refine ⟨rfl, ?_⟩
  intro emb excl hist m hm
  have hm1 : m ∈ bestMatches emb excl hist :=
    mem_sortDescBySim.mp (List.mem_of_mem_take hm)
  obtain ⟨hgt, -⟩ := mem_bestMatches hm1
  exact ⟨hgt, ne_of_gt hgt⟩

/-- Concrete ranking evaluation shared by witnesses: one candidate,
identical embedding, similarity `1`. -/
lemma echoRank_demo_eval :
    echoRank [(1 : ℝ)] 0 [⟨⟨1, "a", "d"⟩, [1]⟩] = [⟨⟨1, "a", "d"⟩, 1⟩] := by
  have hcos := cos_ones_eval
  have hid : ((⟨⟨1, "a", "d"⟩, [1]⟩ : HistEmb).thought.id = (0 : Int)) = False := by
    simp
  unfold echoRank bestMatches
  rw [List.filterMap_cons]
  rw [if_neg (by simp)]
  rw [if_pos (by rw [hcos]; norm_num [similarity_threshold])]
  rw [hcos]
  rfl

/-- C6 witness: a concrete candidate at similarity `1` is ranked, and the
theorem instantiated there yields `1 > 0.5` and `1 ≠ 0.5`. -/
theorem echoRank_strict_threshold_witness :
    ((⟨⟨1, "a", "d"⟩, 1⟩ : EchoMatch) ∈ echoRank [(1 : ℝ)] 0 [⟨⟨1, "a", "d"⟩, [1]⟩])
    ∧ ((⟨⟨1, "a", "d"⟩, 1⟩ : EchoMatch).similarity > similarity_threshold
        ∧ (⟨⟨1, "a", "d"⟩, 1⟩ : EchoMatch).similarity ≠ similarity_threshold) :=
  have hmem : (⟨⟨1, "a", "d"⟩, 1⟩ : EchoMatch)
      ∈ echoRank [(1 : ℝ)] 0 [⟨⟨1, "a", "d"⟩, [1]⟩] := by
    rw [echoRank_demo_eval]; exact List.mem_singleton.mpr rfl
  ⟨hmem, echoRank_strict_threshold.2 [(1 : ℝ)] 0 _ _ hmem⟩

open Classical in
/-- C7. The echo ranking output is the top-5 truncation of a stable
descending sort: it has at most 5 elements, is sorted non-strictly
descending by similarity, and for every similarity value the sorted list
preserves the candidates' relative input order (stability, hence
deterministic tie-breaking by input order). -/
theorem echoRank_sorted_stable_limited (emb : List ℝ) (excl : Int)
    (hist : List HistEmb) :
    echoRank emb excl hist = (sortDescBySim (bestMatches emb excl hist)).take 5
    ∧ (echoRank emb excl hist).length ≤ 5
    ∧ (echoRank emb excl hist).Pairwise (fun a b => b.similarity ≤ a.similarity)
    ∧ ∀ s : ℝ,
        (sortDescBySim (bestMatches emb excl hist)).filter
            (fun m => decide (m.similarity = s))
          = (bestMatches emb excl hist).filter
              (fun m => decide (m.similarity = s)) := by
  refine ⟨rfl, ?_, ?_, fun s => filter_sortDescBySim _ s⟩
  · rw [echoRank, List.length_take]
    exact min_le_left _ _
  · exact List.Pairwise.sublist (List.take_sublist _ _)
      (pairwise_sortDescBySim (bestMatches emb excl hist))

/-! ### C8: embedding-call batching -/

/-- C8. Resolving fingerprints for the supplied history notes issues zero
outbound embedding calls when every note already carries a (non-empty)
embedding, and exactly one batched call — whose input batch is the contents
of *all* missing notes, in order — when at least one note lacks one.
(server.py lines 618-655 and 892-923.) -/
theorem resolve_history_batches (hist : List ThoughtWithEmbedding)
    (oracle : List String → List (List ℝ)) (mname : String) :
    (hist.all hasEmbedding = true →
      (resolve_history hist oracle mname).calls = [])
    ∧ (hist.all hasEmbedding = false →
        (resolve_history hist oracle mname).calls
          = [(hist.filter fun h => !hasEmbedding h).map (·.content)]) := by
  constructor
  · intro h
    have hmiss : (hist.filter fun h => !hasEmbedding h) = [] := by
      rw [List.filter_eq_nil_iff]
      intro a ha
      simp [List.all_eq_true.mp h a ha]
    unfold resolve_history
    rw [if_pos (by simp [hmiss])]
  · intro h
    have hne : ¬((hist.filter fun h => !hasEmbedding h).isEmpty = true) := by
      intro hemp
      rw [List.isEmpty_iff] at hemp
      have hall : hist.all hasEmbedding = true := by
        rw [List.all_eq_true]
        intro x hx
        by_contra hfx
        have hxmem : x ∈ hist.filter fun h => !hasEmbedding h :=
          List.mem_filter.mpr ⟨hx, by simp [Bool.eq_false_iff.mpr hfx]⟩
        simp [hemp] at hxmem
      rw [h] at hall
      exact Bool.false_ne_true hall
    unfold resolve_history
    rw [if_neg hne]

/-- C8 witness: a fully pre-embedded history issues no call; a history with
two missing embeddings (one absent, one empty — Python-falsy) issues
exactly one call batching both contents. -/
theorem resolve_history_batches_witness :
    (resolve_history [⟨1, "a", "d", some [1]⟩] (fun _ => []) "m").calls = []
    ∧ (resolve_history [⟨1, "a", "d", none⟩, ⟨2, "b", "d", some []⟩]
        (fun _ => []) "m").calls = [["a", "b"]] :=
  ⟨(resolve_history_batches [⟨1, "a", "d", some [1]⟩] (fun _ => []) "m").1 rfl,
   ((resolve_history_batches [⟨1, "a", "d", none⟩, ⟨2, "b", "d", some []⟩]
      (fun _ => []) "m").2 rfl).trans (by decide)⟩

/-! ### C9: malformed single-note verdict degrades -/

/-- The echo verdict's question slot is `none` whenever the verdict is not
worth-surfacing, so re-guarding it with the worth flag is the identity. -/
lemma history_verdict_question (jp : String → Option HistVerdict)
    (raw : String) (rel : List EchoMatch) :
    (if (history_verdict jp raw rel).1 then (history_verdict jp raw rel).2
     else none)
      = (history_verdict jp raw rel).2 := by
  unfold history_verdict
  split
  · rfl
  · cases jp (strip_code_fence (pyStrip raw)) with
    | none => rfl
    | some d =>
      by_cases hw : d.worthTalking <;> simp [hw]

/-- C9. When the single-note completion text cannot be decoded as a JSON
verdict (after code-fence stripping), the single-note check degrades to
`worth = false` and — for any non-empty history — `check_insight` still
returns a normal response determined entirely by the echo side: no parse
exception propagates.  (server.py lines 872-888; the `except` at line 885
maps every decode failure to `single_point_worth = False`.) -/
theorem single_parse_failure_degrades
    (jpSingle : String → Option SPVerdict) (single_raw : String)
    (hparse : jpSingle (strip_code_fence (pyStrip single_raw)) = none) :
    parse_single_point jpSingle single_raw = false
    ∧ ∀ (req_thought : Thought) (current_embedding : List ℝ)
        (hist : List ThoughtWithEmbedding)
        (embedOracle : List String → List (List ℝ)) (embedModelName : String)
        (jpHistory : String → Option HistVerdict)
        (history_raw single_question_raw : String),
        hist.isEmpty = false →
        check_insight req_thought current_embedding hist embedOracle
            embedModelName jpSingle single_raw jpHistory history_raw
            single_question_raw
          = Except.ok
              { worthTalking :=
                  (history_verdict jpHistory history_raw
                    (check_insight_matches req_thought current_embedding hist
                      embedOracle embedModelName)).1,
                question :=
                  (history_verdict jpHistory history_raw
                    (check_insight_matches req_thought current_embedding hist
                      embedOracle embedModelName)).2,
                thinking := none,
                computedEmbeddings :=
                  if (resolve_history hist embedOracle
                      embedModelName).computedForFrontend.isEmpty then none
                  else some (resolve_history hist embedOracle
                      embedModelName).computedForFrontend } := by
  have hsp : parse_single_point jpSingle single_raw = false := by
    unfold parse_single_point
    rw [hparse]
  refine ⟨hsp, ?_⟩
  intro req_thought current_embedding hist embedOracle embedModelName
    jpHistory history_raw single_question_raw hne
  unfold check_insight
  rw [hne]
  simp only [Bool.false_eq_true, if_false, hsp, Bool.false_and, Bool.false_or]
  rw [history_verdict_question]

/-- C9 witness: an oracle that rejects the malformed text `"not json"`
degrades the single-note check to `false`, and the whole pipeline returns
the plain not-worth response for a one-note pre-embedded history. -/
theorem single_parse_failure_degrades_witness :
    parse_single_point (fun _ => (none : Option SPVerdict)) "not json" = false
    ∧ check_insight ⟨1, "q", "d"⟩ [] [⟨2, "b", "d", some [1]⟩] (fun _ => [])
        "m" (fun _ => none) "not json" (fun _ => none) "" ""
        = Except.ok ⟨false, none, none, none⟩ := by
  have h := single_parse_failure_degrades (fun _ => (none : Option SPVerdict))
    "not json" rfl
  refine ⟨h.1, ?_⟩
  rw [h.2 ⟨1, "q", "d"⟩ [] [⟨2, "b", "d", some [1]⟩] (fun _ => []) "m"
    (fun _ => none) "" "" rfl]
  have hres : resolve_history [⟨2, "b", "d", some [1]⟩]
      (fun _ => ([] : List (List ℝ))) "m"
      = ⟨[⟨⟨2, "b", "d"⟩, [1]⟩], [], [], none⟩ := by
    unfold resolve_history
    rw [if_pos (by decide)]
    rfl
  have hmatches : check_insight_matches ⟨1, "q", "d"⟩ []
      [⟨2, "b", "d", some [1]⟩] (fun _ => []) "m" = [] := by
    unfold check_insight_matches
    rw [hres]
    unfold echoRank bestMatches
    dsimp only
    rw [List.filterMap_cons]
    rw [if_neg (by decide)]
    rw [if_neg (by rw [cos_mismatch_eval]; norm_num [similarity_threshold])]
    rfl
  rw [hmatches, hres]
  rfl

/-! ### C2: self-match exclusion is broken by loop-variable shadowing -/

/-- C2. In `check_insight`, when some history notes arrive without
precomputed embeddings, the batch-embedding loop at server.py line 914
rebinds the Python variable `thought`; the self-exclusion check at line 931
then excludes the *last re-embedded history note* instead of the query
note.  Concretely: query note id 1 (embedding `[1]`), history = [note id 1
with stored embedding `[1]`, note id 2 without embedding] — the ranked
output contains the query note itself (id 1, similarity 1). -/
theorem check_insight_self_match_bug :
    (check_insight_matches ⟨1, "note", "2024-01-01"⟩ [(1 : ℝ)]
        [⟨1, "note", "2024-01-01", some [1]⟩, ⟨2, "other", "2024-01-02", none⟩]
        (fun _ => [[]]) "text-embedding-3-small").map (fun m => m.thought.id)
      = [1] := by
  have hres : resolve_history
      [⟨1, "note", "2024-01-01", some [1]⟩, ⟨2, "other", "2024-01-02", none⟩]
      (fun _ => [([] : List ℝ)]) "text-embedding-3-small"
      = ⟨[⟨⟨1, "note", "2024-01-01"⟩, [1]⟩, ⟨⟨2, "other", "2024-01-02"⟩, []⟩],
         [⟨2, [], "text-embedding-3-small"⟩], [["other"]],
         some ⟨2, "other", "2024-01-02", none⟩⟩ := by
    unfold resolve_history
    rw [if_neg (by decide)]
    rfl
  unfold check_insight_matches
  rw [hres]
  unfold echoRank bestMatches
  dsimp only
  rw [List.filterMap_cons, List.filterMap_cons]
  rw [if_neg (by decide)]
  rw [if_pos (by rw [cos_ones_eval]; norm_num [similarity_threshold])]
  rw [if_pos (by decide)]
  rw [cos_ones_eval]
  rfl

/-! ### C3: the merge crashes on an empty history -/

/-- C3. The merge at server.py lines 1031-1032 reads `history_worth`,
which is assigned only inside the non-empty-history branch (line 948): with
`historyThoughts = []` the endpoint raises `NameError` (surfaced as an
HTTP 500) instead of returning `worth = false` with no question. -/
theorem check_insight_empty_history_crash :
    check_insight ⟨1, "note", "2024-01-01"⟩ [(1 : ℝ)] [] (fun _ => [])
        "text-embedding-3-small" (fun _ => some ⟨false, "r"⟩) "not-worth"
        (fun _ => none) "" ""
      = Except.error (PyError.nameError "history_worth") := by
  unfold check_insight
  rfl

end Echo
